import Mathlib

/-!
Shallow embedding of the AI interview-preparation web application
(React/TypeScript) for specification verification.

The embedding covers:
* the data model of `src/types.ts`;
* the Streaming Consumer `processStream` and retrying turn driver
  `getNextAiMessage` of `src/components/pages/InterviewPage.tsx`;
* the transcript serialization of `GeminiAIService.generateEvaluation`
  (`src/services/geminiService.ts`);
* the Results Pipeline `fetchResults` of
  `src/components/pages/ResultsPage.tsx` together with its render branches;
* the roadmap id assignment `setRoadmap` and `toggleTodo` of the
  application context (`src/unnamed/part_001`, `AppContext`);
* the score coercion of `GeminiAIService.scoreResume` and
  `OpenAIAIService.scoreResume`;
* a transition system for the interview page state machine.

External effects (remote provider calls, timers, speech, React state
setters) are modelled by explicit environment inputs (lists of attempt
outcomes, a timestamp function) and by event traces recorded in the
results of the embedded functions.
-/

namespace InterviewApp

/-! ### Data model (`src/types.ts`) -/

/-- Speaker tag of a transcript message (`'ai' | 'user'`). -/
inductive Speaker where
  | ai
  | user
deriving DecidableEq, Repr

/-- `TranscriptMessage` from `src/types.ts`: speaker, text, optional
base64 JPEG data-URL image. -/
structure TranscriptMessage where
  speaker : Speaker
  text : String
  image : Option String := none
deriving DecidableEq, Repr

/-- `Page` union from `src/types.ts`. -/
inductive Page where
  | setup
  | interview
  | results
  | dashboard
  | resumeChecker
deriving DecidableEq, Repr

/-- The interview page status union
(`'idle' | 'listening' | 'speaking' | 'thinking' | 'finished'`). -/
inductive Status where
  | idle
  | listening
  | thinking
  | speaking
  | finished
deriving DecidableEq, Repr

/-- `User` from `src/types.ts`. -/
structure User where
  name : String
  goal : String
deriving DecidableEq, Repr

/-- `Evaluation` from `src/types.ts`.  The `level` field is a string at
runtime (TypeScript union types are erased); the code passes it through
to `generateRoadmap` without inspecting it. -/
structure Evaluation where
  summary : String
  knowledge : String
  skills : String
  confidence : String
  communication : String
  level : String
deriving DecidableEq, Repr

/-- `Resource` from `src/types.ts`. -/
structure Resource where
  type : String
  title : String
  url : String
deriving DecidableEq, Repr

/-- `Omit<RoadmapItem, 'id' | 'completed'>`: the raw roadmap item as
returned by `generateRoadmap`, before the context assigns `id` and
`completed`. -/
structure RoadmapItemRaw where
  title : String
  description : String
  keyConcepts : List String
  project : String
  resources : List Resource
deriving DecidableEq, Repr

/-- `RoadmapItem` from `src/types.ts`. -/
structure RoadmapItem where
  id : String
  title : String
  description : String
  keyConcepts : List String
  project : String
  resources : List Resource
  completed : Bool
deriving DecidableEq, Repr

/-! ### Streaming Consumer (`InterviewPage.processStream`)

```
const processStream = async (stream) => {
  let fullText = "";
  for await (const chunkText of stream) {
      fullText += chunkText;
      setCurrentAiResponse(fullText);
  }
  return fullText;
};
```

The stream is modelled as the finite list of text fragments it yields.
The result records the returned `fullText` together with the successive
values passed to `setCurrentAiResponse`. -/

/-- One iteration of the `for await` body of `processStream`: extend the
accumulator and record the `setCurrentAiResponse` call. -/
def processStreamStep (acc : String × List String) (chunkText : String) :
    String × List String :=
  (acc.1 ++ chunkText, acc.2 ++ [acc.1 ++ chunkText])

/-- `processStream` over a fragment list: first component is the returned
`fullText`, second component is the list of partial accumulations
surfaced through `setCurrentAiResponse`, in order. -/
def processStream (fragments : List String) : String × List String :=
  fragments.foldl processStreamStep ("", [])

/-- Concatenation of all fragments in arrival order (the specification's
"concatenation of all yielded fragments"). -/
def concatFragments (fragments : List String) : String :=
  fragments.foldl (fun a b => a ++ b) ""

/-! ### Retrying turn driver (`InterviewPage.getNextAiMessage`) -/

/-- Observable side effects of the interview page turn driver, in
program order.  `surface` is a `setCurrentAiResponse` call, `append` an
`addMessageToTranscript` call, `speak` a call into speech synthesis,
`navigate` a `setPage` call (issued by the speech-completion callback),
`delay` an awaited `setTimeout` backoff in milliseconds. -/
inductive Event where
  | surface (s : String)
  | append (m : TranscriptMessage)
  | setStatus (s : Status)
  | speak (s : String)
  | navigate (p : Page)
  | delay (ms : Nat)
deriving DecidableEq, Repr

/-- Environment behaviour of one attempt of
`aiService.streamNextQuestion` + `processStream`: either the stream
completes with the given fragments, or the attempt throws after having
yielded the given fragments. -/
inductive AttemptOutcome where
  | ok (fragments : List String)
  | err (failFragments : List String)
deriving Repr

/-- Result of running `getNextAiMessage`: the transcript after the run,
the event trace, the number of attempts made (calls into
`streamNextQuestion`), and the awaited backoff delays in milliseconds. -/
structure TurnResult where
  transcript : List TranscriptMessage
  events : List Event
  attemptsMade : Nat
  delays : List Nat
deriving Repr

/-- The fixed apologetic closing line spoken on retry exhaustion
(`InterviewPage.tsx` line 93). -/
def connectionErrorMessage : String :=
  "I\x27m sorry, I\x27m having trouble connecting right now. Let\x27s end the interview here and you can review the results so far."

/-- The transient status text surfaced before a retry
(`InterviewPage.tsx` line 99). -/
def retryingMessage : String :=
  "I\x27m having a little trouble connecting. Trying again in a moment..."

/-- The `while (attempt <= maxRetries)` loop of `getNextAiMessage`.
Structural recursion on the environment's attempt outcomes; `attempt` is
the loop counter, `made` and `delays` accumulate attempts and awaited
backoffs.  On success: append one interviewer message with the full
accumulation, clear the live response, speak it (status `speaking`, then
`idle` from the speech callback), and return.  On failure: increment
`attempt`; if attempts are exhausted, append and speak the fixed closing
line and navigate to the results page from the speech callback;
otherwise await `2 ^ attempt * 1000` ms and retry. -/
def turnLoop (maxRetries : Nat) (outcomes : List AttemptOutcome)
    (attempt : Nat) (transcript : List TranscriptMessage)
    (events : List Event) (made : Nat) (delays : List Nat) : TurnResult :=
  if attempt > maxRetries then ⟨transcript, events, made, delays⟩ else
  match outcomes with
    | [] => ⟨transcript, events, made, delays⟩
    | AttemptOutcome.ok fragments :: _ =>
        let p := processStream fragments
        let msg : TranscriptMessage := ⟨Speaker.ai, p.1, none⟩
        ⟨transcript ++ [msg],
         events ++ p.2.map Event.surface ++
           [Event.append msg, Event.surface "", Event.setStatus Status.speaking,
            Event.speak p.1, Event.setStatus Status.idle],
         made + 1, delays⟩
    | AttemptOutcome.err failFragments :: rest =>
        let surfaced := (processStream failFragments).2.map Event.surface
        let attempt2 := attempt + 1
        if attempt2 > maxRetries then
          let msg : TranscriptMessage := ⟨Speaker.ai, connectionErrorMessage, none⟩
          ⟨transcript ++ [msg],
           events ++ surfaced ++
             [Event.append msg, Event.surface "",
              Event.speak connectionErrorMessage, Event.navigate Page.results],
           made + 1, delays⟩
        else
          turnLoop maxRetries rest attempt2 transcript
            (events ++ surfaced ++
              [Event.surface retryingMessage, Event.delay (2 ^ attempt2 * 1000)])
            (made + 1) (delays ++ [2 ^ attempt2 * 1000])

/-- `getNextAiMessage` (`InterviewPage.tsx` lines 76-104):
`maxRetries = 2`, so at most 3 attempts in total. -/
def getNextAiMessage (outcomes : List AttemptOutcome)
    (transcript : List TranscriptMessage) : TurnResult :=
  turnLoop 2 outcomes 0 transcript [] 0 []

/-! ### Transcript serialization
(`GeminiAIService.generateEvaluation`, `src/services/geminiService.ts`
lines 50-67): each message contributes a line
`` `${msg.speaker}: ${msg.text}\n` ``; a candidate message with a usable
attached image additionally contributes a reference line. -/

/-- Runtime string of the speaker tag. -/
def speakerStr : Speaker → String
  | Speaker.ai => "ai"
  | Speaker.user => "user"

/-- Serialization contributed by a single message to `transcriptText`
inside `generateEvaluation`.  The image is usable when
`msg.image.split(',')[1]` is truthy, i.e. present and non-empty. -/
def serializeMessage (msg : TranscriptMessage) : String :=
  let line := speakerStr msg.speaker ++ ": " ++ msg.text ++ "\n"
  match msg.speaker, msg.image with
  | Speaker.user, some image =>
      match (image.splitOn ",").get? 1 with
      | some base64Data =>
          if base64Data ≠ "" then
            line ++ "[Reference image for the user\x27s statement above]\n"
          else line
      | none => line
  | _, _ => line

/-- The `transcriptText` accumulation of `generateEvaluation`. -/
def serializeTranscript (transcript : List TranscriptMessage) : String :=
  transcript.foldl (fun acc msg => acc ++ serializeMessage msg) ""

/-! ### Roadmap id assignment and completion toggle
(`AppContext`, `src/unnamed/part_001`) -/

/-- The id assigned to roadmap item `index`:
`` `todo-${index}-${Date.now()}` ``.  `now` is the `Date.now()` value
observed for that item. -/
def mkTodoId (index now : Nat) : String :=
  "todo-" ++ Nat.repr index ++ "-" ++ Nat.repr now

/-- `setRoadmap` of `AppContext`: assign each raw item a client-side id
and `completed = false`.  `now index` is the value `Date.now()` returns
when item `index` is processed. -/
def setRoadmapIds (now : Nat → Nat) (newRoadmap : List RoadmapItemRaw) :
    List RoadmapItem :=
  newRoadmap.mapIdx fun index item =>
    { id := mkTodoId index (now index)
      title := item.title
      description := item.description
      keyConcepts := item.keyConcepts
      project := item.project
      resources := item.resources
      completed := false }

/-- `toggleTodo` of `AppContext`: flip `completed` on every item whose
id matches, leave the rest untouched. -/
def toggleTodo (id : String) (prev : List RoadmapItem) : List RoadmapItem :=
  prev.map fun item =>
    if item.id = id then { item with completed := !item.completed } else item

/-! ### Results Pipeline (`ResultsPage.tsx`) -/

/-- The React state of `ResultsPage` together with the app-context state
it reads and writes (`user`, `transcript`, `evaluation`, `roadmap`). -/
structure ResultsState where
  user : Option User
  transcript : List TranscriptMessage
  evaluation : Option Evaluation
  roadmap : List RoadmapItem
  error : Option String
  isLoading : Bool
  loadingMessage : String
deriving Repr

/-- Environment behaviour of one iteration of the `fetchResults` retry
loop: the outcome of `generateEvaluation` (`none` = the call throws) and,
if that succeeded, the outcome of `generateRoadmap` (`none` = throws). -/
structure PipelineAttempt where
  evalResult : Option Evaluation
  roadmapResult : Option (List RoadmapItemRaw)
deriving Repr

/-- Result of running the `fetchResults` effect: final state, the
arguments of every `generateEvaluation` and `generateRoadmap` call made,
the awaited backoff delays (ms), and the number of loop iterations
(attempts). -/
structure PipelineResult where
  state : ResultsState
  evalCalls : List (List TranscriptMessage × String)
  roadmapCalls : List (String × String)
  delays : List Nat
  attemptsMade : Nat
deriving Repr

/-- Guard-failure message (`ResultsPage.tsx` line 27). -/
def noDataMessage : String :=
  "No interview data found. Please start a new interview."

/-- Terminal retry-exhaustion message (`ResultsPage.tsx` line 54). -/
def resultsErrorMessage : String :=
  "I\x27m sorry, I encountered an issue while generating your results. This can happen due to a temporary connection problem. Please try starting a new interview."

/-- Loading message while `generateEvaluation` runs. -/
def analyzingMessage : String := "Analyzing your interview performance..."

/-- Loading message while `generateRoadmap` runs. -/
def roadmapLoadingMessage : String :=
  "Creating your personalized learning roadmap..."

/-- Retry status message embedding the computed delay
(`` `There was a temporary issue. Retrying in ${delay / 1000} seconds...` ``). -/
def retryingLoadingMessage (delay : Nat) : String :=
  "There was a temporary issue. Retrying in " ++ Nat.repr (delay / 1000)
    ++ " seconds..."

/-- The `while (attempt <= maxRetries)` loop of `fetchResults`
(`ResultsPage.tsx` lines 35-62) with `maxRetries = 2`.  Each iteration:
set loading, clear the error, call `generateEvaluation(transcript,
user.goal)`; on success store the evaluation (`setEvaluation`) and call
`generateRoadmap(evalResult.level, user.goal)`; on success of that store
the roadmap with assigned ids (`setRoadmap`) and stop.  On either throw:
increment `attempt`; when attempts are exhausted set the fixed error
message, else surface the retry message and await `2 ^ attempt * 1000`
ms. -/
def fetchLoop (now : Nat → Nat) (goal : String)
    (transcript : List TranscriptMessage) (attempts : List PipelineAttempt)
    (attempt : Nat) (st : ResultsState)
    (evalCalls : List (List TranscriptMessage × String))
    (roadmapCalls : List (String × String))
    (delays : List Nat) (made : Nat) : PipelineResult :=
  if attempt > 2 then ⟨st, evalCalls, roadmapCalls, delays, made⟩ else
  match attempts with
    | [] => ⟨st, evalCalls, roadmapCalls, delays, made⟩
    | a :: rest =>
      let st1 : ResultsState :=
        { st with isLoading := true, error := none,
                  loadingMessage := analyzingMessage }
      let evalCalls1 := evalCalls ++ [(transcript, goal)]
      match a.evalResult with
      | none =>
          let attempt2 := attempt + 1
          if attempt2 > 2 then
            ⟨{ st1 with error := some resultsErrorMessage, isLoading := false },
             evalCalls1, roadmapCalls, delays, made + 1⟩
          else
            fetchLoop now goal transcript rest attempt2
              { st1 with
                  loadingMessage := retryingLoadingMessage (2 ^ attempt2 * 1000) }
              evalCalls1 roadmapCalls (delays ++ [2 ^ attempt2 * 1000]) (made + 1)
      | some ev =>
        let st2 : ResultsState :=
          { st1 with evaluation := some ev,
                     loadingMessage := roadmapLoadingMessage }
        let roadmapCalls1 := roadmapCalls ++ [(ev.level, goal)]
        match a.roadmapResult with
        | none =>
            let attempt2 := attempt + 1
            if attempt2 > 2 then
              ⟨{ st2 with error := some resultsErrorMessage, isLoading := false },
               evalCalls1, roadmapCalls1, delays, made + 1⟩
            else
              fetchLoop now goal transcript rest attempt2
                { st2 with
                    loadingMessage := retryingLoadingMessage (2 ^ attempt2 * 1000) }
                evalCalls1 roadmapCalls1 (delays ++ [2 ^ attempt2 * 1000]) (made + 1)
        | some raw =>
            ⟨{ st2 with roadmap := setRoadmapIds now raw, isLoading := false },
             evalCalls1, roadmapCalls1, delays, made + 1⟩

/-- `fetchResults` (`ResultsPage.tsx` lines 25-63): guard on a missing
user or an empty transcript, else run the retry loop. -/
def fetchResults (now : Nat → Nat) (st : ResultsState)
    (attempts : List PipelineAttempt) : PipelineResult :=
  match st.user, st.transcript with
  | none, _ =>
      ⟨{ st with error := some noDataMessage, isLoading := false }, [], [], [], 0⟩
  | some _, [] =>
      ⟨{ st with error := some noDataMessage, isLoading := false }, [], [], [], 0⟩
  | some u, _ :: _ => fetchLoop now u.goal st.transcript attempts 0 st [] [] [] 0

/-- The `useEffect` body of `ResultsPage` (lines 64-69): run
`fetchResults` only when no evaluation exists yet, else just clear the
loading flag. -/
def runResultsEffect (now : Nat → Nat) (st : ResultsState)
    (attempts : List PipelineAttempt) : PipelineResult :=
  match st.evaluation with
  | some _ => ⟨{ st with isLoading := false }, [], [], [], 0⟩
  | none => fetchResults now st attempts

/-- What `ResultsPage` renders, by the branch taken
(`ResultsPage.tsx` lines 73-81). -/
inductive ResultsView where
  | loading (message : String)
  | errorCard (message : String)
  | empty
  | results (evaluation : Evaluation) (roadmap : List RoadmapItem)
deriving Repr

/-- The render branch selection of `ResultsPage`: loading spinner, then
error card, then `null` without an evaluation, else the results view. -/
def renderResults (st : ResultsState) : ResultsView :=
  if st.isLoading then ResultsView.loading st.loadingMessage
  else
    match st.error with
    | some e => ResultsView.errorCard e
    | none =>
      match st.evaluation with
      | none => ResultsView.empty
      | some ev => ResultsView.results ev st.roadmap

/-! ### Resume score coercion (`scoreResume` in both provider clients)

The provider's parsed JSON payload is modelled with a dynamic score
field (`num` or `str`), mirroring the JavaScript runtime where the
declared TypeScript type is erased. -/

/-- A dynamic JSON score value as it arrives from the remote provider. -/
inductive JsonValue where
  | num (n : Int)
  | str (s : String)
deriving DecidableEq, Repr

/-- The parsed `scoreResume` provider payload
(`{score, strengths, weaknesses}`). -/
structure ScorePayload where
  score : JsonValue
  strengths : String
  weaknesses : String
deriving DecidableEq, Repr

/-- JavaScript whitespace skipped by `parseInt` (common cases). -/
def isJsWhitespace (c : Char) : Bool :=
  c == ' ' || c == '\t' || c == '\n' || c == '\r'

/-- Decimal digit value of a character, if any. -/
def digitVal (c : Char) : Option Nat :=
  if '0' ≤ c ∧ c ≤ '9' then some (c.toNat - '0'.toNat) else none

/-- Value of the longest leading run of decimal digits. -/
def takeDigitsValue : List Char → Nat → Nat
  | [], acc => acc
  | c :: cs, acc =>
    match digitVal c with
    | some d => takeDigitsValue cs (acc * 10 + d)
    | none => acc

/-- Whether the character list starts with a decimal digit. -/
def hasLeadingDigit : List Char → Bool
  | [] => false
  | c :: _ => (digitVal c).isSome

/-- `parseInt(s, 10)` after whitespace trimming: optional sign, then the
longest digit run; `none` models `NaN` (no digits). -/
def jsParseIntCore (cs : List Char) : Option Int :=
  match cs with
  | '-' :: rest =>
      if hasLeadingDigit rest then some (-(takeDigitsValue rest 0 : Int))
      else none
  | '+' :: rest =>
      if hasLeadingDigit rest then some ((takeDigitsValue rest 0 : Int))
      else none
  | _ =>
      if hasLeadingDigit cs then some ((takeDigitsValue cs 0 : Int))
      else none

/-- JavaScript `parseInt(s, 10)`; `none` models `NaN`. -/
def jsParseInt (s : String) : Option Int :=
  jsParseIntCore (s.data.dropWhile isJsWhitespace)

/-- `GeminiAIService.scoreResume` result handling
(`src/services/geminiService.ts` lines 187-192): if `typeof result.score
!== 'number'`, replace it by `parseInt(result.score, 10) || 0` (`NaN`
and `0` are both falsy, hence the `getD 0`). -/
def geminiScoreResume (result : ScorePayload) : ScorePayload :=
  match result.score with
  | JsonValue.num _ => result
  | JsonValue.str s =>
      { result with score := JsonValue.num ((jsParseInt s).getD 0) }

/-- `OpenAIAIService.scoreResume` result handling
(`src/services/geminiService.ts` lines 358-377): the parsed payload is
returned as-is, with no coercion. -/
def openAIScoreResume (result : ScorePayload) : ScorePayload :=
  result

/-! ### Interview page state machine (`InterviewPage.tsx`)

The page's observable state: the `status` React state, the transcript,
and the current page.  Transitions are exactly those the component can
perform: the opening/next interviewer turn (triggered while `thinking`
when the transcript is empty or ends with a candidate message), its
retry-exhausted variant, speech-playback completion, a finalized
candidate utterance (the mic is disabled while `speaking` or
`thinking`), and the Finish Interview button, whose `disabled` attribute
is `transcript.length < 2`. -/

/-- Observable state of the interview page. -/
structure AppState where
  status : Status
  transcript : List TranscriptMessage
  page : Page
deriving Repr

/-- Initial state on entering the interview page: `status` starts as
`'thinking'` and the transcript is empty. -/
def initialInterviewState : AppState :=
  ⟨Status.thinking, [], Page.interview⟩

/-- An interviewer turn is triggered while `thinking` when the
transcript is empty (opening question effect, line 107) or its last
message is the candidate's (line 114). -/
def turnTrigger (st : AppState) : Prop :=
  st.transcript = [] ∨
    ∃ m, st.transcript.getLast? = some m ∧ m.speaker = Speaker.user

/-- One transition of the interview page. -/
inductive StepI : AppState → AppState → Prop where
  | aiTurnSuccess (st : AppState) (text : String)
      (hthink : st.status = Status.thinking) (htrig : turnTrigger st) :
      StepI st { st with status := Status.speaking,
                         transcript := st.transcript ++ [⟨Speaker.ai, text, none⟩] }
  | aiTurnExhausted (st : AppState)
      (hthink : st.status = Status.thinking) (htrig : turnTrigger st) :
      StepI st { st with
                  transcript :=
                    st.transcript ++ [⟨Speaker.ai, connectionErrorMessage, none⟩],
                  page := Page.results }
  | speechDone (st : AppState) (h : st.status = Status.speaking) :
      StepI st { st with status := Status.idle }
  | userSpeech (st : AppState) (text : String) (image : Option String)
      (h : st.status = Status.idle) :
      StepI st { st with status := Status.thinking,
                         transcript := st.transcript ++ [⟨Speaker.user, text, image⟩] }
  | finish (st : AppState) (h : 2 ≤ st.transcript.length) :
      StepI st { st with status := Status.finished, page := Page.results }

/-- States reachable from the initial interview state. -/
def ReachableI (st : AppState) : Prop :=
  Relation.ReflTransGen StepI initialInterviewState st

/-- A full exchange: the transcript contains an interviewer message and
a candidate message. -/
def fullExchange (t : List TranscriptMessage) : Prop :=
  (∃ m ∈ t, m.speaker = Speaker.ai) ∧ (∃ m ∈ t, m.speaker = Speaker.user)

/-! ### Streaming Consumer lemmas -/

/-- Specification of the successive accumulations: `accumSteps a fs`
lists the running concatenations of `fs` starting from `a`. -/
def accumSteps (a : String) : List String → List String
  | [] => []
  | f :: fs => (a ++ f) :: accumSteps (a ++ f) fs

theorem processStream_foldl_fst (fragments : List String) (a : String)
    (l : List String) :
    (fragments.foldl processStreamStep (a, l)).1 =
      fragments.foldl (fun x y => x ++ y) a := by
  induction fragments generalizing a l with
  | nil => rfl
  | cons f fs ih => simp [processStreamStep, ih]

theorem processStream_foldl_snd (fragments : List String) (a : String)
    (l : List String) :
    (fragments.foldl processStreamStep (a, l)).2 = l ++ accumSteps a fragments := by
  induction fragments generalizing a l with
  | nil => simp [accumSteps]
  | cons f fs ih => simp [processStreamStep, ih, accumSteps]

theorem processStream_fst (fragments : List String) :
    (processStream fragments).1 = concatFragments fragments :=
  processStream_foldl_fst fragments "" []

theorem accumSteps_length (fs : List String) :
    ∀ a : String, (accumSteps a fs).length = fs.length := by
  induction fs with
  | nil => intro a; rfl
  | cons f fs ih => intro a; simp [accumSteps, ih]

theorem accumSteps_get (fs : List String) :
    ∀ (a : String) (i : Nat) (hi : i < (accumSteps a fs).length),
      (accumSteps a fs).get ⟨i, hi⟩ =
        ((fs.take (i + 1)).foldl (fun x y => x ++ y) a) := by
  induction fs with
  | nil => intro a i hi; simp [accumSteps] at hi
  | cons f fs ih =>
    intro a i hi
    cases i with
    | zero => simp [accumSteps]
    | succ i => simpa [accumSteps] using ih (a ++ f) i (by simpa [accumSteps] using hi)

theorem processStream_snd (fragments : List String) :
    (processStream fragments).2 = accumSteps "" fragments := by
  simpa using processStream_foldl_snd fragments "" []

/-! ### Turn loop lemmas -/

theorem turnLoop_attempts_le (outcomes : List AttemptOutcome) :
    ∀ (attempt : Nat) (t : List TranscriptMessage) (ev : List Event)
      (made : Nat) (ds : List Nat),
      (turnLoop 2 outcomes attempt t ev made ds).attemptsMade ≤ made + (3 - attempt) := by
  induction outcomes with
  | nil =>
    intro attempt t ev made ds
    rw [turnLoop]
    split <;> simp
  | cons o rest ih =>
    intro attempt t ev made ds
    rw [turnLoop.eq_def]
    split
    · simp
    · next hle =>
      cases o with
      | ok fragments => simp; omega
      | err failFragments =>
        simp only []
        split
        · simp; omega
        · exact le_trans (ih _ _ _ _ _) (by omega)

/-! ### Claim theorems for the Streaming Consumer and Retry Policy -/

/-- C1: for every successfully streamed interviewer turn (at most two
failed attempts followed by a completed stream), the Streaming
Consumer's final accumulated string equals the concatenation of all
fragments in arrival order, the partial accumulation is surfaced to the
caller after every fragment, and exactly one interviewer (`ai`)
utterance whose text is that final string is appended to the
transcript. -/
theorem c1_streaming_consumer (fails : List (List String))
    (hf : fails.length ≤ 2) (fragments : List String)
    (t : List TranscriptMessage) :
    (getNextAiMessage (fails.map AttemptOutcome.err ++ [AttemptOutcome.ok fragments]) t).transcript
      = t ++ [⟨Speaker.ai, concatFragments fragments, none⟩]
    ∧ (processStream fragments).1 = concatFragments fragments
    ∧ (processStream fragments).2.length = fragments.length
    ∧ (∀ (i : Nat) (hi : i < (processStream fragments).2.length),
        (processStream fragments).2.get ⟨i, hi⟩ =
          concatFragments (fragments.take (i + 1))) := by
  refine ⟨?_, processStream_fst fragments, ?_, ?_⟩
  · match fails, hf with
    | [], _ =>
      simp [getNextAiMessage, turnLoop, processStream_fst fragments,
        concatFragments]
    | [p1], _ =>
      simp [getNextAiMessage, turnLoop, processStream_fst fragments,
        concatFragments]
    | [p1, p2], _ =>
      simp [getNextAiMessage, turnLoop, processStream_fst fragments,
        concatFragments]
  · rw [processStream_snd]; exact accumSteps_length fragments ""
  · intro i hi
    rw [List.get_of_eq (processStream_snd fragments) ⟨i, hi⟩]
    exact accumSteps_get fragments "" i _

theorem fetchLoop_attempts_le (now : Nat → Nat) (goal : String)
    (tr : List TranscriptMessage) (attempts : List PipelineAttempt) :
    ∀ (attempt : Nat) (st : ResultsState)
      (ec : List (List TranscriptMessage × String))
      (rc : List (String × String)) (ds : List Nat) (made : Nat),
      (fetchLoop now goal tr attempts attempt st ec rc ds made).attemptsMade
        ≤ made + (3 - attempt) := by
  induction attempts with
  | nil =>
    intro attempt st ec rc ds made
    rw [fetchLoop]
    split <;> simp
  | cons a rest ih =>
    intro attempt st ec rc ds made
    rw [fetchLoop.eq_def]
    split
    · simp
    · next hle =>
      cases ha : a.evalResult with
      | none =>
        simp only [ha]
        split
        · simp; omega
        · exact le_trans (ih _ _ _ _ _ _) (by omega)
      | some ev =>
        simp only [ha]
        cases hr : a.roadmapResult with
        | none =>
          simp only [hr]
          split
          · simp; omega
          · exact le_trans (ih _ _ _ _ _ _) (by omega)
        | some raw => simp [hr]; omega

theorem fetchLoop_evalCalls_mem (now : Nat → Nat) (goal : String)
    (tr : List TranscriptMessage) (attempts : List PipelineAttempt) :
    ∀ (attempt : Nat) (st : ResultsState)
      (ec : List (List TranscriptMessage × String))
      (rc : List (String × String)) (ds : List Nat) (made : Nat)
      (c : List TranscriptMessage × String),
      c ∈ (fetchLoop now goal tr attempts attempt st ec rc ds made).evalCalls →
        c ∈ ec ∨ c = (tr, goal) := by
  induction attempts with
  | nil =>
    intro attempt st ec rc ds made c hc
    rw [fetchLoop] at hc
    split at hc <;> exact Or.inl hc
  | cons a rest ih =>
    intro attempt st ec rc ds made c hc
    rw [fetchLoop.eq_def] at hc
    split at hc
    · exact Or.inl hc
    · cases ha : a.evalResult with
      | none =>
        simp only [ha] at hc
        split at hc
        · simp at hc
          rcases hc with hc | hc
          · exact Or.inl hc
          · exact Or.inr (by simp [hc])
        · rcases ih _ _ _ _ _ _ _ hc with h | h
          · simp at h
            rcases h with h | h
            · exact Or.inl h
            · exact Or.inr (by simp [h])
          · exact Or.inr h
      | some ev =>
        simp only [ha] at hc
        cases hr : a.roadmapResult with
        | none =>
          simp only [hr] at hc
          split at hc
          · simp at hc
            rcases hc with hc | hc
            · exact Or.inl hc
            · exact Or.inr (by simp [hc])
          · rcases ih _ _ _ _ _ _ _ hc with h | h
            · simp at h
              rcases h with h | h
              · exact Or.inl h
              · exact Or.inr (by simp [h])
            · exact Or.inr h
        | some raw =>
          simp only [hr] at hc
          simp at hc
          rcases hc with hc | hc
          · exact Or.inl hc
          · exact Or.inr (by simp [hc])

/-- C1 witness: a concrete successful turn with two fragments. -/
theorem c1_streaming_consumer_witness :
    (getNextAiMessage ([[]].map AttemptOutcome.err ++ [AttemptOutcome.ok ["Hel", "lo"]]) []).transcript
      = [⟨Speaker.ai, concatFragments ["Hel", "lo"], none⟩]
    ∧ (processStream ["Hel", "lo"]).1 = concatFragments ["Hel", "lo"]
    ∧ (processStream ["Hel", "lo"]).2.length = 2
    ∧ (∀ (i : Nat) (hi : i < (processStream ["Hel", "lo"]).2.length),
        (processStream ["Hel", "lo"]).2.get ⟨i, hi⟩ =
          concatFragments (["Hel", "lo"].take (i + 1))) := by
  have h := c1_streaming_consumer [[]] (by decide) ["Hel", "lo"] []
  simpa using h

/-- C2: for both retry-guarded call sites — a conversational turn
(`getNextAiMessage`) and the Results Pipeline loop (`fetchResults`) —
at most 3 attempts are made in total, a successful attempt stops further
attempts (the remaining environment outcomes are irrelevant), and when
the first two attempts fail the delays awaited before attempts 2 and 3
are exactly 2000 ms and 4000 ms (2 s and 4 s). -/
theorem c2_retry_policy :
    (∀ (outcomes : List AttemptOutcome) (t : List TranscriptMessage),
        (getNextAiMessage outcomes t).attemptsMade ≤ 3)
    ∧ (∀ (fragments : List String) (rest : List AttemptOutcome)
          (t : List TranscriptMessage),
        getNextAiMessage (AttemptOutcome.ok fragments :: rest) t
          = getNextAiMessage [AttemptOutcome.ok fragments] t
        ∧ (getNextAiMessage (AttemptOutcome.ok fragments :: rest) t).attemptsMade = 1)
    ∧ (∀ (p1 p2 fragments : List String) (t : List TranscriptMessage),
        (getNextAiMessage [AttemptOutcome.err p1, AttemptOutcome.err p2,
            AttemptOutcome.ok fragments] t).delays = [2000, 4000]
        ∧ (getNextAiMessage [AttemptOutcome.err p1, AttemptOutcome.err p2,
            AttemptOutcome.ok fragments] t).attemptsMade = 3)
    ∧ (∀ (now : Nat → Nat) (st : ResultsState) (attempts : List PipelineAttempt),
        (fetchResults now st attempts).attemptsMade ≤ 3)
    ∧ (∀ (now : Nat → Nat) (st : ResultsState) (ev : Evaluation)
          (raw : List RoadmapItemRaw) (rest : List PipelineAttempt),
        fetchResults now st (⟨some ev, some raw⟩ :: rest)
          = fetchResults now st [⟨some ev, some raw⟩]
        ∧ (fetchResults now st (⟨some ev, some raw⟩ :: rest)).attemptsMade ≤ 1)
    ∧ (∀ (now : Nat → Nat) (nm gl : String) (m : TranscriptMessage)
          (tr : List TranscriptMessage) (e0 : Option Evaluation)
          (r0 : List RoadmapItem) (er0 : Option String) (il0 : Bool) (lm0 : String)
          (r1 : Option (List RoadmapItemRaw)) (ev2 ev3 : Evaluation)
          (raw3 : List RoadmapItemRaw),
        (fetchResults now ⟨some ⟨nm, gl⟩, m :: tr, e0, r0, er0, il0, lm0⟩
            [⟨none, r1⟩, ⟨some ev2, none⟩, ⟨some ev3, some raw3⟩]).delays
          = [2000, 4000]
        ∧ (fetchResults now ⟨some ⟨nm, gl⟩, m :: tr, e0, r0, er0, il0, lm0⟩
            [⟨none, r1⟩, ⟨some ev2, none⟩, ⟨some ev3, some raw3⟩]).attemptsMade = 3) := by
  refine ⟨?_, ?_, ?_, ?_, ?_, ?_⟩
  · intro outcomes t
    exact le_trans (turnLoop_attempts_le outcomes 0 t [] 0 []) (by omega)
  · intro fragments rest t
    constructor <;> simp [getNextAiMessage, turnLoop]
  · intro p1 p2 fragments t
    constructor <;> simp [getNextAiMessage, turnLoop]
  · intro now st attempts
    rcases st with ⟨u, tr, e, r, er, il, lm⟩
    cases u with
    | none => simp [fetchResults]
    | some u =>
      cases tr with
      | nil => simp [fetchResults]
      | cons m tr =>
        exact le_trans (fetchLoop_attempts_le now u.goal (m :: tr) attempts 0
          ⟨some u, m :: tr, e, r, er, il, lm⟩ [] [] [] 0) (by omega)
  · intro now st ev raw rest
    rcases st with ⟨u, tr, e, r, er, il, lm⟩
    cases u with
    | none => simp [fetchResults]
    | some u =>
      cases tr with
      | nil => simp [fetchResults]
      | cons m tr => constructor <;> simp [fetchResults, fetchLoop]
  · intro now nm gl m tr e0 r0 er0 il0 lm0 r1 ev2 ev3 raw3
    constructor <;> simp [fetchResults, fetchLoop]

theorem serializeTranscript_append (t : List TranscriptMessage)
    (m : TranscriptMessage) :
    serializeTranscript (t ++ [m]) = serializeTranscript t ++ serializeMessage m := by
  simp [serializeTranscript, List.foldl_append]

/-- C10: when a conversational turn exhausts all retry attempts, the
fixed apologetic closing line is appended to the transcript as an
interviewer (`ai`) utterance before it is spoken and before navigation
to the results screen, and it therefore appears as an `ai:` line in the
transcript serialization used by `generateEvaluation`. -/
theorem c10_closing_line_in_transcript (p1 p2 p3 : List String)
    (t : List TranscriptMessage) :
    (getNextAiMessage [AttemptOutcome.err p1, AttemptOutcome.err p2,
        AttemptOutcome.err p3] t).transcript
      = t ++ [⟨Speaker.ai, connectionErrorMessage, none⟩]
    ∧ (∃ es, (getNextAiMessage [AttemptOutcome.err p1, AttemptOutcome.err p2,
          AttemptOutcome.err p3] t).events
        = es ++ [Event.append ⟨Speaker.ai, connectionErrorMessage, none⟩,
                 Event.surface "", Event.speak connectionErrorMessage,
                 Event.navigate Page.results])
    ∧ serializeTranscript (getNextAiMessage [AttemptOutcome.err p1,
          AttemptOutcome.err p2, AttemptOutcome.err p3] t).transcript
      = serializeTranscript t ++ ("ai: " ++ connectionErrorMessage ++ "\n") := by
  have htr : (getNextAiMessage [AttemptOutcome.err p1, AttemptOutcome.err p2,
      AttemptOutcome.err p3] t).transcript
      = t ++ [⟨Speaker.ai, connectionErrorMessage, none⟩] := by
    simp [getNextAiMessage, turnLoop]
  refine ⟨htr, ?_, ?_⟩
  · refine ⟨(List.map Event.surface (processStream p1).2 ++
        [Event.surface retryingMessage, Event.delay 2000]) ++
      (List.map Event.surface (processStream p2).2 ++
        [Event.surface retryingMessage, Event.delay 4000]) ++
      List.map Event.surface (processStream p3).2, ?_⟩
    simp [getNextAiMessage, turnLoop]
  · rw [htr, serializeTranscript_append]
    have hmsg : serializeMessage ⟨Speaker.ai, connectionErrorMessage, none⟩
        = "ai: " ++ connectionErrorMessage ++ "\n" := rfl
    rw [hmsg, String.append_assoc]

/-- C4: invoking the Results Pipeline again when an evaluation already
exists is a no-op — no `generateEvaluation` or `generateRoadmap` call is
made and the stored evaluation and roadmap are unchanged. -/
theorem c4_pipeline_idempotent (now : Nat → Nat) (st : ResultsState)
    (attempts : List PipelineAttempt) (ev : Evaluation)
    (h : st.evaluation = some ev) :
    (runResultsEffect now st attempts).evalCalls = []
    ∧ (runResultsEffect now st attempts).roadmapCalls = []
    ∧ (runResultsEffect now st attempts).state.evaluation = st.evaluation
    ∧ (runResultsEffect now st attempts).state.roadmap = st.roadmap := by
  simp [runResultsEffect, h]

/-- C4 witness: a concrete state with an existing evaluation. -/
theorem c4_pipeline_idempotent_witness :
    (runResultsEffect (fun _ => 0)
        ⟨none, [], some ⟨"s", "k", "sk", "c", "cm", "Beginner"⟩, [], none, false, ""⟩
        []).evalCalls = []
    ∧ (runResultsEffect (fun _ => 0)
        ⟨none, [], some ⟨"s", "k", "sk", "c", "cm", "Beginner"⟩, [], none, false, ""⟩
        []).roadmapCalls = []
    ∧ (runResultsEffect (fun _ => 0)
        ⟨none, [], some ⟨"s", "k", "sk", "c", "cm", "Beginner"⟩, [], none, false, ""⟩
        []).state.evaluation
      = (⟨none, [], some ⟨"s", "k", "sk", "c", "cm", "Beginner"⟩, [], none, false, ""⟩ :
          ResultsState).evaluation
    ∧ (runResultsEffect (fun _ => 0)
        ⟨none, [], some ⟨"s", "k", "sk", "c", "cm", "Beginner"⟩, [], none, false, ""⟩
        []).state.roadmap
      = (⟨none, [], some ⟨"s", "k", "sk", "c", "cm", "Beginner"⟩, [], none, false, ""⟩ :
          ResultsState).roadmap :=
  c4_pipeline_idempotent (fun _ => 0)
    ⟨none, [], some ⟨"s", "k", "sk", "c", "cm", "Beginner"⟩, [], none, false, ""⟩
    [] ⟨"s", "k", "sk", "c", "cm", "Beginner"⟩ rfl

/-- C3 counterexample: with a valid user and a non-empty transcript,
when every `generateEvaluation` call succeeds with the same evaluation
but every `generateRoadmap` call throws, the pipeline fails terminally —
yet the session's evaluation state is *set* (to the successful
evaluation), not unset as the claim asserts, because `setEvaluation` runs
before `generateRoadmap`. -/
theorem c3_counterexample :
    (fetchResults (fun _ => 0)
        ⟨some ⟨"Alice", "Backend Engineer"⟩, [⟨Speaker.user, "hi", none⟩],
         none, [], none, true, analyzingMessage⟩
        [⟨some ⟨"s", "k", "sk", "c", "cm", "Beginner"⟩, none⟩,
         ⟨some ⟨"s", "k", "sk", "c", "cm", "Beginner"⟩, none⟩,
         ⟨some ⟨"s", "k", "sk", "c", "cm", "Beginner"⟩, none⟩]).state.evaluation
      = some ⟨"s", "k", "sk", "c", "cm", "Beginner"⟩
    ∧ (fetchResults (fun _ => 0)
        ⟨some ⟨"Alice", "Backend Engineer"⟩, [⟨Speaker.user, "hi", none⟩],
         none, [], none, true, analyzingMessage⟩
        [⟨some ⟨"s", "k", "sk", "c", "cm", "Beginner"⟩, none⟩,
         ⟨some ⟨"s", "k", "sk", "c", "cm", "Beginner"⟩, none⟩,
         ⟨some ⟨"s", "k", "sk", "c", "cm", "Beginner"⟩, none⟩]).state.error
      = some resultsErrorMessage := by
  constructor <;> rfl

/-- An attempt of the Results Pipeline loop that throws: either the
`generateEvaluation` call or the `generateRoadmap` call fails. -/
def attemptFails (a : PipelineAttempt) : Prop :=
  a.evalResult = none ∨ a.roadmapResult = none

/-- C3 corrected: if every attempt of the Results Pipeline throws (in
either step), the pipeline fails terminally after 3 attempts with the
fixed user-facing error message, the error card is rendered (so no
evaluation or roadmap is displayed), and the roadmap state is unchanged;
the evaluation state, however, may have been set by a successful
`generateEvaluation` preceding a failing `generateRoadmap`. -/
theorem c3_terminal_failure (now : Nat → Nat) (st : ResultsState) (u : User)
    (m : TranscriptMessage) (tr : List TranscriptMessage)
    (a1 a2 a3 : PipelineAttempt)
    (hu : st.user = some u) (ht : st.transcript = m :: tr)
    (h1 : attemptFails a1) (h2 : attemptFails a2) (h3 : attemptFails a3) :
    (fetchResults now st [a1, a2, a3]).state.error = some resultsErrorMessage
    ∧ (fetchResults now st [a1, a2, a3]).state.isLoading = false
    ∧ (fetchResults now st [a1, a2, a3]).state.roadmap = st.roadmap
    ∧ renderResults (fetchResults now st [a1, a2, a3]).state
        = ResultsView.errorCard resultsErrorMessage
    ∧ (fetchResults now st [a1, a2, a3]).attemptsMade = 3 := by
  obtain ⟨e1, r1⟩ := a1
  obtain ⟨e2, r2⟩ := a2
  obtain ⟨e3, r3⟩ := a3
  simp only [attemptFails] at h1 h2 h3
  rw [fetchResults.eq_def, hu, ht]
  cases e1 <;> cases r1 <;> cases e2 <;> cases r2 <;> cases e3 <;> cases r3 <;>
    simp_all [fetchLoop, renderResults]

/-- C3 witness for the corrected statement: all three attempts fail in
the `generateEvaluation` step. -/
theorem c3_terminal_failure_witness :
    (fetchResults (fun _ => 0)
        ⟨some ⟨"Alice", "Backend Engineer"⟩, [⟨Speaker.user, "hi", none⟩],
         none, [], none, true, analyzingMessage⟩
        [⟨none, none⟩, ⟨none, none⟩, ⟨none, none⟩]).state.error
      = some resultsErrorMessage
    ∧ (fetchResults (fun _ => 0)
        ⟨some ⟨"Alice", "Backend Engineer"⟩, [⟨Speaker.user, "hi", none⟩],
         none, [], none, true, analyzingMessage⟩
        [⟨none, none⟩, ⟨none, none⟩, ⟨none, none⟩]).state.isLoading = false
    ∧ (fetchResults (fun _ => 0)
        ⟨some ⟨"Alice", "Backend Engineer"⟩, [⟨Speaker.user, "hi", none⟩],
         none, [], none, true, analyzingMessage⟩
        [⟨none, none⟩, ⟨none, none⟩, ⟨none, none⟩]).state.roadmap
      = (⟨some ⟨"Alice", "Backend Engineer"⟩, [⟨Speaker.user, "hi", none⟩],
         none, [], none, true, analyzingMessage⟩ : ResultsState).roadmap
    ∧ renderResults (fetchResults (fun _ => 0)
        ⟨some ⟨"Alice", "Backend Engineer"⟩, [⟨Speaker.user, "hi", none⟩],
         none, [], none, true, analyzingMessage⟩
        [⟨none, none⟩, ⟨none, none⟩, ⟨none, none⟩]).state
      = ResultsView.errorCard resultsErrorMessage
    ∧ (fetchResults (fun _ => 0)
        ⟨some ⟨"Alice", "Backend Engineer"⟩, [⟨Speaker.user, "hi", none⟩],
         none, [], none, true, analyzingMessage⟩
        [⟨none, none⟩, ⟨none, none⟩, ⟨none, none⟩]).attemptsMade = 3 :=
  c3_terminal_failure (fun _ => 0)
    ⟨some ⟨"Alice", "Backend Engineer"⟩, [⟨Speaker.user, "hi", none⟩],
     none, [], none, true, analyzingMessage⟩
    ⟨"Alice", "Backend Engineer"⟩ ⟨Speaker.user, "hi", none⟩ []
    ⟨none, none⟩ ⟨none, none⟩ ⟨none, none⟩ rfl rfl
    (Or.inl rfl) (Or.inl rfl) (Or.inl rfl)

/-- C5 counterexample: `GeminiAIService.scoreResume` applied to a
payload whose score is the numeric-looking string `"200"` returns the
score 200, which is not in `[0, 100]` — the code performs a best-effort
parse but never clamps the result to the claimed range. -/
theorem c5_counterexample :
    (geminiScoreResume ⟨JsonValue.str "200", "s", "w"⟩).score = JsonValue.num 200
    ∧ ¬((0 : Int) ≤ 200 ∧ (200 : Int) ≤ 100) := by
  constructor
  · rfl
  · decide

/-- C5 corrected: the Gemini implementation coerces a non-number score
via a best-effort integer parse — a string score is replaced by
`parseInt(s, 10) || 0` (so `"82"` yields the number 82 and an
unparseable score defaults to 0) and a numeric score passes through
unchanged — with no clamping to `[0, 100]`; the OpenAI implementation
applies no coercion at all. -/
theorem c5_score_coercion :
    (∀ (s strengths w : String),
        (geminiScoreResume ⟨JsonValue.str s, strengths, w⟩).score
          = JsonValue.num ((jsParseInt s).getD 0))
    ∧ (∀ (n : Int) (strengths w : String),
        geminiScoreResume ⟨JsonValue.num n, strengths, w⟩
          = ⟨JsonValue.num n, strengths, w⟩)
    ∧ (geminiScoreResume ⟨JsonValue.str "82", "s", "w"⟩).score = JsonValue.num 82
    ∧ (geminiScoreResume ⟨JsonValue.str "abc", "s", "w"⟩).score = JsonValue.num 0
    ∧ (∀ p : ScorePayload, openAIScoreResume p = p) :=
  ⟨fun _ _ _ => rfl, fun _ _ _ => rfl, by decide, by decide, fun _ => rfl⟩

/-- C6 counterexample: on the payload `{score: "82", ...}` the two
`scoreResume` implementations disagree — the Gemini client coerces the
score to the number 82 while the OpenAI client returns the string
unchanged. -/
theorem c6_counterexample :
    geminiScoreResume ⟨JsonValue.str "82", "strengths", "weaknesses"⟩
      ≠ openAIScoreResume ⟨JsonValue.str "82", "strengths", "weaknesses"⟩ := by
  decide

/-- C6 corrected: the two `scoreResume` implementations agree on every
payload whose score is already a number; they differ when the score is a
numeric-looking string (only Gemini coerces). -/
theorem c6_num_score_agreement (p : ScorePayload) (n : Int)
    (h : p.score = JsonValue.num n) :
    geminiScoreResume p = openAIScoreResume p := by
  rcases p with ⟨sc, strengths, w⟩
  simp only at h
  subst h
  rfl

/-- C6 witness: agreement at a concrete numeric-score payload. -/
theorem c6_num_score_agreement_witness :
    geminiScoreResume ⟨JsonValue.num 50, "a", "b"⟩
      = openAIScoreResume ⟨JsonValue.num 50, "a", "b"⟩ :=
  c6_num_score_agreement ⟨JsonValue.num 50, "a", "b"⟩ 50 rfl

/-- C7: the Results Pipeline invoked without a user (Session Goal) or
with an empty transcript fails immediately with the fixed
restart-directing message and makes no provider call; and in every run,
every `generateEvaluation` call receives a non-empty transcript. -/
theorem c7_no_empty_transcript_evaluation :
    (∀ (now : Nat → Nat) (st : ResultsState) (attempts : List PipelineAttempt),
        st.user = none ∨ st.transcript = [] →
        (fetchResults now st attempts).state.error = some noDataMessage
        ∧ (fetchResults now st attempts).evalCalls = []
        ∧ (fetchResults now st attempts).roadmapCalls = []
        ∧ (fetchResults now st attempts).state.evaluation = st.evaluation
        ∧ (fetchResults now st attempts).state.roadmap = st.roadmap)
    ∧ (∀ (now : Nat → Nat) (st : ResultsState) (attempts : List PipelineAttempt)
          (c : List TranscriptMessage × String),
        c ∈ (fetchResults now st attempts).evalCalls → c.1 ≠ []) := by
  constructor
  · intro now st attempts h
    rcases st with ⟨u, tr, e, r, er, il, lm⟩
    cases u <;> cases tr <;> simp_all [fetchResults]
  · intro now st attempts c hc
    rcases st with ⟨u, tr, e, r, er, il, lm⟩
    cases u with
    | none => simp [fetchResults] at hc
    | some u =>
      cases tr with
      | nil => simp [fetchResults] at hc
      | cons m tr =>
        simp only [fetchResults] at hc
        rcases fetchLoop_evalCalls_mem now u.goal (m :: tr) attempts 0
            _ [] [] [] 0 c hc with h | h
        · simp at h
        · simp [h]

/-- C7 witness: concrete empty-transcript invocation takes the guard. -/
theorem c7_no_empty_transcript_evaluation_witness :
    (fetchResults (fun _ => 0) ⟨some ⟨"A", "B"⟩, [], none, [], none, true, ""⟩
        []).state.error = some noDataMessage
    ∧ (fetchResults (fun _ => 0) ⟨some ⟨"A", "B"⟩, [], none, [], none, true, ""⟩
        []).evalCalls = []
    ∧ (fetchResults (fun _ => 0) ⟨some ⟨"A", "B"⟩, [], none, [], none, true, ""⟩
        []).roadmapCalls = []
    ∧ (fetchResults (fun _ => 0) ⟨some ⟨"A", "B"⟩, [], none, [], none, true, ""⟩
        []).state.evaluation
      = (⟨some ⟨"A", "B"⟩, [], none, [], none, true, ""⟩ : ResultsState).evaluation
    ∧ (fetchResults (fun _ => 0) ⟨some ⟨"A", "B"⟩, [], none, [], none, true, ""⟩
        []).state.roadmap
      = (⟨some ⟨"A", "B"⟩, [], none, [], none, true, ""⟩ : ResultsState).roadmap :=
  c7_no_empty_transcript_evaluation.1 (fun _ => 0)
    ⟨some ⟨"A", "B"⟩, [], none, [], none, true, ""⟩ [] (Or.inr rfl)

/-! ### Interview state machine lemmas -/

/-- Inductive invariant of the interview page: whenever the status is
`idle` or `speaking` the transcript already contains an interviewer
message, and whenever the transcript has at least two messages a full
exchange has occurred. -/
def invariantI (st : AppState) : Prop :=
  ((st.status = Status.idle ∨ st.status = Status.speaking) →
      ∃ m ∈ st.transcript, m.speaker = Speaker.ai)
  ∧ (2 ≤ st.transcript.length → fullExchange st.transcript)

theorem reachable_invariant (st : AppState) (h : ReachableI st) :
    invariantI st := by
  induction h with
  | refl =>
    refine ⟨?_, ?_⟩
    · intro hc
      rcases hc with hc | hc <;> simp [initialInterviewState] at hc
    · intro hlen
      simp [initialInterviewState] at hlen
  | tail hab hbc ih =>
    rename_i b _
    cases hbc with
    | aiTurnSuccess text hthink htrig =>
      have htrig' : b.transcript = [] ∨
          ∃ m, b.transcript.getLast? = some m ∧ m.speaker = Speaker.user := htrig
      refine ⟨?_, ?_⟩
      · intro _
        exact ⟨⟨Speaker.ai, text, none⟩,
          List.mem_append_right _ (List.mem_singleton_self _), rfl⟩
      · intro hlen
        rcases htrig' with hemp | ⟨m, hlast, hspk⟩
        · simp [hemp] at hlen
        · exact ⟨⟨⟨Speaker.ai, text, none⟩,
            List.mem_append_right _ (List.mem_singleton_self _), rfl⟩,
            ⟨m, List.mem_append_left _ (List.mem_of_getLast?_eq_some hlast), hspk⟩⟩
    | aiTurnExhausted hthink htrig =>
      have htrig' : b.transcript = [] ∨
          ∃ m, b.transcript.getLast? = some m ∧ m.speaker = Speaker.user := htrig
      refine ⟨?_, ?_⟩
      · intro hc
        have hc' : b.status = Status.idle ∨ b.status = Status.speaking := hc
        rcases hc' with h | h <;> · rw [hthink] at h; simp at h
      · intro hlen
        rcases htrig' with hemp | ⟨m, hlast, hspk⟩
        · simp [hemp] at hlen
        · exact ⟨⟨⟨Speaker.ai, connectionErrorMessage, none⟩,
            List.mem_append_right _ (List.mem_singleton_self _), rfl⟩,
            ⟨m, List.mem_append_left _ (List.mem_of_getLast?_eq_some hlast), hspk⟩⟩
    | speechDone hsp =>
      refine ⟨?_, ih.2⟩
      intro _
      exact ih.1 (Or.inr hsp)
    | userSpeech text image hidle =>
      refine ⟨?_, ?_⟩
      · intro hc
        have hc' : Status.thinking = Status.idle ∨
            Status.thinking = Status.speaking := hc
        rcases hc' with h | h <;> simp at h
      · intro _
        obtain ⟨ma, hma, hmas⟩ := ih.1 (Or.inl hidle)
        exact ⟨⟨ma, List.mem_append_left _ hma, hmas⟩,
          ⟨⟨Speaker.user, text, image⟩,
            List.mem_append_right _ (List.mem_singleton_self _), rfl⟩⟩
    | finish hlen =>
      refine ⟨?_, ih.2⟩
      intro hc
      have hc' : Status.finished = Status.idle ∨
          Status.finished = Status.speaking := hc
      rcases hc' with h | h <;> simp at h

/-- C8: the only transition of the interview page that reaches the
`finished` status is the Finish Interview action, and from every
reachable state it can fire only when a full exchange (an interviewer
message and a candidate reply) is already in the transcript. -/
theorem c8_finish_requires_full_exchange (st st' : AppState)
    (hr : ReachableI st) (hstep : StepI st st')
    (hfin : st'.status = Status.finished) :
    fullExchange st.transcript := by
  have hinv := reachable_invariant st hr
  cases hstep with
  | aiTurnSuccess text hthink htrig =>
      have h : Status.speaking = Status.finished := hfin
      simp at h
  | aiTurnExhausted hthink htrig =>
      have h : st.status = Status.finished := hfin
      rw [hthink] at h
      simp at h
  | speechDone hsp =>
      have h : Status.idle = Status.finished := hfin
      simp at h
  | userSpeech text image hidle =>
      have h : Status.thinking = Status.finished := hfin
      simp at h
  | finish hlen => exact hinv.2 hlen

/-- C8 witness: a concrete reachable run — opening question, speech
completion, one candidate reply — after which Finish Interview fires. -/
theorem c8_finish_requires_full_exchange_witness :
    fullExchange [⟨Speaker.ai, "Q", none⟩, ⟨Speaker.user, "A", none⟩] := by
  have h1 : StepI initialInterviewState
      ⟨Status.speaking, [⟨Speaker.ai, "Q", none⟩], Page.interview⟩ :=
    StepI.aiTurnSuccess initialInterviewState "Q" rfl (Or.inl rfl)
  have h2 : StepI ⟨Status.speaking, [⟨Speaker.ai, "Q", none⟩], Page.interview⟩
      ⟨Status.idle, [⟨Speaker.ai, "Q", none⟩], Page.interview⟩ :=
    StepI.speechDone _ rfl
  have h3 : StepI ⟨Status.idle, [⟨Speaker.ai, "Q", none⟩], Page.interview⟩
      ⟨Status.thinking, [⟨Speaker.ai, "Q", none⟩, ⟨Speaker.user, "A", none⟩],
        Page.interview⟩ :=
    StepI.userSpeech _ "A" none rfl
  have hreach : ReachableI
      ⟨Status.thinking, [⟨Speaker.ai, "Q", none⟩, ⟨Speaker.user, "A", none⟩],
        Page.interview⟩ :=
    Relation.ReflTransGen.head h1 (Relation.ReflTransGen.head h2
      (Relation.ReflTransGen.head h3 Relation.ReflTransGen.refl))
  exact c8_finish_requires_full_exchange _ _ hreach
    (StepI.finish _ (by simp)) rfl

/-! ### Decimal representation facts

`mkTodoId index now` embeds `index` and `now` as decimal strings around
`-` separators; since decimal digits are never `-`, the index is
recoverable from the id, which makes ids unique across indices. -/

theorem digitChar_ne_dash (n : Nat) : Nat.digitChar n ≠ '-' := by
  match n with
  | 0 | 1 | 2 | 3 | 4 | 5 | 6 | 7 | 8 | 9 | 10 | 11 | 12 | 13 | 14 | 15 => decide
  | (m + 16) => simp [Nat.digitChar]

theorem mem_toDigitsCore (b : Nat) :
    ∀ (f n : Nat) (ds : List Char) (c : Char),
      c ∈ Nat.toDigitsCore b f n ds → c ∈ ds ∨ ∃ m, c = Nat.digitChar m := by
  intro f
  induction f with
  | zero => intro n ds c h; exact Or.inl h
  | succ f ih =>
    intro n ds c h
    simp only [Nat.toDigitsCore] at h
    split at h
    · rcases List.mem_cons.mp h with h | h
      · exact Or.inr ⟨n % b, h⟩
      · exact Or.inl h
    · rcases ih (n / b) (Nat.digitChar (n % b) :: ds) c h with h | h
      · rcases List.mem_cons.mp h with h | h
        · exact Or.inr ⟨n % b, h⟩
        · exact Or.inl h
      · exact Or.inr h

theorem reprNat_no_dash (n : Nat) : '-' ∉ (Nat.repr n).data := by
  intro hmem
  have hd : (Nat.repr n).data = Nat.toDigitsCore 10 (n + 1) n [] := rfl
  rcases mem_toDigitsCore 10 (n + 1) n [] '-' (hd ▸ hmem) with h | ⟨m, hm⟩
  · exact absurd h (List.not_mem_nil _)
  · exact digitChar_ne_dash m hm.symm

theorem toDigitsCore_append (b : Nat) :
    ∀ (f n : Nat) (ds : List Char),
      Nat.toDigitsCore b f n ds = Nat.toDigitsCore b f n [] ++ ds := by
  intro f
  induction f with
  | zero => intro n ds; rfl
  | succ f ih =>
    intro n ds
    simp only [Nat.toDigitsCore]
    split
    · rfl
    · rw [ih (n / b) (Nat.digitChar (n % b) :: ds),
        ih (n / b) [Nat.digitChar (n % b)]]
      simp

theorem toDigitsCore_eq_digits :
    ∀ (f n : Nat), n ≠ 0 → n ≤ f →
      Nat.toDigitsCore 10 f n [] = ((Nat.digits 10 n).map Nat.digitChar).reverse := by
  intro f
  induction f with
  | zero => intro n h0 hf; omega
  | succ f ih =>
    intro n h0 hf
    have hdig : Nat.digits 10 n = n % 10 :: Nat.digits 10 (n / 10) :=
      Nat.digits_def' (by norm_num) (Nat.pos_of_ne_zero h0)
    simp only [Nat.toDigitsCore]
    split
    · next hq => rw [hdig, hq]; simp
    · next hq =>
      have hlt : n / 10 < n := Nat.div_lt_self (Nat.pos_of_ne_zero h0) (by norm_num)
      rw [toDigitsCore_append 10 f (n / 10), ih (n / 10) hq (by omega), hdig]
      simp

theorem digitChar_inj_lt :
    ∀ a < 10, ∀ b < 10, Nat.digitChar a = Nat.digitChar b → a = b := by decide

theorem map_digitChar_inj :
    ∀ (l1 l2 : List Nat), (∀ x ∈ l1, x < 10) → (∀ x ∈ l2, x < 10) →
      l1.map Nat.digitChar = l2.map Nat.digitChar → l1 = l2 := by
  intro l1
  induction l1 with
  | nil => intro l2 _ _ h; cases l2 <;> simp_all
  | cons a l ih =>
    intro l2 h1 h2 h
    cases l2 with
    | nil => simp at h
    | cons b l2t =>
      simp only [List.map_cons, List.cons.injEq] at h
      have hab : a = b :=
        digitChar_inj_lt a (h1 a (List.mem_cons_self a l)) b
          (h2 b (List.mem_cons_self b l2t)) h.1
      have hlt : l = l2t :=
        ih l2t (fun x hx => h1 x (List.mem_cons_of_mem a hx))
          (fun x hx => h2 x (List.mem_cons_of_mem b hx)) h.2
      rw [hab, hlt]

theorem reprNat_eq_digits (n : Nat) (h0 : n ≠ 0) :
    (Nat.repr n).data = ((Nat.digits 10 n).map Nat.digitChar).reverse := by
  have hd : (Nat.repr n).data = Nat.toDigitsCore 10 (n + 1) n [] := rfl
  rw [hd, toDigitsCore_eq_digits (n + 1) n h0 (by omega)]

theorem reprNat_ne_zero_str (n : Nat) (hn : n ≠ 0) : (Nat.repr n).data ≠ ['0'] := by
  intro hdata
  rw [reprNat_eq_digits n hn] at hdata
  have h2 : (Nat.digits 10 n).map Nat.digitChar = ['0'] := by
    have := congrArg List.reverse hdata
    simpa using this
  cases hdig : Nat.digits 10 n with
  | nil => rw [hdig] at h2; simp at h2
  | cons d rest =>
    cases rest with
    | cons d2 rest2 => rw [hdig] at h2; simp at h2
    | nil =>
      rw [hdig] at h2
      simp only [List.map_cons, List.map_nil, List.cons.injEq] at h2
      have hd10 : d < 10 :=
        Nat.digits_lt_base (by norm_num) (hdig ▸ List.mem_cons_self d [])
      have hd0 : d = 0 := by
        apply digitChar_inj_lt d hd10 0 (by norm_num)
        rw [h2.1]
        decide
      have hofd := Nat.ofDigits_digits 10 n
      rw [hdig, hd0] at hofd
      simp [Nat.ofDigits] at hofd
      exact hn hofd.symm

theorem reprNat_injective (m n : Nat) (h : Nat.repr m = Nat.repr n) : m = n := by
  have hdata : (Nat.repr m).data = (Nat.repr n).data := by rw [h]
  by_cases hm : m = 0 <;> by_cases hn : n = 0
  · omega
  · exfalso
    apply reprNat_ne_zero_str n hn
    rw [← hdata, hm]
    rfl
  · exfalso
    apply reprNat_ne_zero_str m hm
    rw [hdata, hn]
    rfl
  · rw [reprNat_eq_digits m hm, reprNat_eq_digits n hn] at hdata
    have hmap : (Nat.digits 10 m).map Nat.digitChar
        = (Nat.digits 10 n).map Nat.digitChar :=
      List.reverse_injective hdata
    have hdig : Nat.digits 10 m = Nat.digits 10 n :=
      map_digitChar_inj _ _
        (fun x hx => Nat.digits_lt_base (by norm_num) hx)
        (fun x hx => Nat.digits_lt_base (by norm_num) hx) hmap
    calc m = Nat.ofDigits 10 (Nat.digits 10 m) := (Nat.ofDigits_digits 10 m).symm
      _ = Nat.ofDigits 10 (Nat.digits 10 n) := by rw [hdig]
      _ = n := Nat.ofDigits_digits 10 n

theorem append_dash_split :
    ∀ (xs : List Char) (ys : List Char) (xs' ys' : List Char),
      '-' ∉ xs → '-' ∉ xs' → xs ++ '-' :: ys = xs' ++ '-' :: ys' →
      xs = xs' ∧ ys = ys' := by
  intro xs
  induction xs with
  | nil =>
    intro ys xs' ys' _ h2 heq
    cases xs' with
    | nil => simpa using heq
    | cons c t =>
      exfalso
      simp only [List.nil_append, List.cons_append, List.cons.injEq] at heq
      exact h2 (heq.1 ▸ List.mem_cons_self c t)
  | cons a xs ih =>
    intro ys xs' ys' h1 h2 heq
    cases xs' with
    | nil =>
      exfalso
      simp only [List.nil_append, List.cons_append, List.cons.injEq] at heq
      exact h1 (heq.1.symm ▸ List.mem_cons_self a xs)
    | cons c t =>
      simp only [List.cons_append, List.cons.injEq] at heq
      have hrec := ih ys t ys'
        (fun hx => h1 (List.mem_cons_of_mem a hx))
        (fun hx => h2 (List.mem_cons_of_mem c hx)) heq.2
      exact ⟨by rw [heq.1, hrec.1], hrec.2⟩

theorem mkTodoId_index_inj (i a j b : Nat) (h : mkTodoId i a = mkTodoId j b) :
    i = j := by
  have hdata := congrArg String.data h
  simp only [mkTodoId, String.data_append, List.append_assoc] at hdata
  have hdata2 : (Nat.repr i).data ++ '-' :: (Nat.repr a).data
      = (Nat.repr j).data ++ '-' :: (Nat.repr b).data := by
    have h5 : "todo-".data ++ ((Nat.repr i).data ++ ("-".data ++ (Nat.repr a).data))
        = "todo-".data ++ ((Nat.repr j).data ++ ("-".data ++ (Nat.repr b).data)) :=
      hdata
    have h6 := List.append_cancel_left h5
    simpa using h6
  have hsplit := append_dash_split (Nat.repr i).data (Nat.repr a).data
    (Nat.repr j).data (Nat.repr b).data (reprNat_no_dash i) (reprNat_no_dash j)
    hdata2
  exact reprNat_injective i j (String.ext hsplit.1)

theorem setRoadmapIds_get (now : Nat → Nat) (l : List RoadmapItemRaw) (i : Nat)
    (h : i < l.length) (h2 : i < (setRoadmapIds now l).length) :
    (setRoadmapIds now l).get ⟨i, h2⟩ =
      { id := mkTodoId i (now i), title := (l.get ⟨i, h⟩).title,
        description := (l.get ⟨i, h⟩).description,
        keyConcepts := (l.get ⟨i, h⟩).keyConcepts,
        project := (l.get ⟨i, h⟩).project,
        resources := (l.get ⟨i, h⟩).resources, completed := false } :=
  List.get_mapIdx l _ i h h2

/-- C9: after roadmap creation every item carries an identifier that is
unique within the roadmap and `completed = false`; toggling one item's
completion via `toggleTodo id` rewrites, position by position, exactly
the items whose id matches — flipping only their `completed` flag and
keeping every other field and every other item unchanged (together with
id uniqueness, exactly one item changes). -/
theorem c9_roadmap_ids_and_toggle :
    (∀ (now : Nat → Nat) (newRoadmap : List RoadmapItemRaw),
        (setRoadmapIds now newRoadmap).Pairwise (fun x y => x.id ≠ y.id)
        ∧ ∀ item ∈ setRoadmapIds now newRoadmap, item.completed = false)
    ∧ (∀ (id : String) (l : List RoadmapItem),
        (toggleTodo id l).length = l.length
        ∧ ∀ (i : Nat) (hi : i < l.length) (hi2 : i < (toggleTodo id l).length),
            (toggleTodo id l).get ⟨i, hi2⟩ =
              if (l.get ⟨i, hi⟩).id = id
              then { l.get ⟨i, hi⟩ with completed := !(l.get ⟨i, hi⟩).completed }
              else l.get ⟨i, hi⟩) := by
  constructor
  · intro now newRoadmap
    constructor
    · rw [List.pairwise_iff_get]
      intro i j hij
      have hi : (i : Nat) < newRoadmap.length := by
        simpa [setRoadmapIds] using i.isLt
      have hj : (j : Nat) < newRoadmap.length := by
        simpa [setRoadmapIds] using j.isLt
      intro heq
      have hgi := setRoadmapIds_get now newRoadmap i.1 hi i.isLt
      have hgj := setRoadmapIds_get now newRoadmap j.1 hj j.isLt
      rw [hgi, hgj] at heq
      have heq2 : mkTodoId i.1 (now i.1) = mkTodoId j.1 (now j.1) := heq
      exact absurd (mkTodoId_index_inj _ _ _ _ heq2) (Nat.ne_of_lt hij)
    · intro item hmem
      obtain ⟨i, hget⟩ := List.mem_iff_get.mp hmem
      have hi : (i : Nat) < newRoadmap.length := by
        simpa [setRoadmapIds] using i.isLt
      rw [← hget, setRoadmapIds_get now newRoadmap i.1 hi i.isLt]
  · intro id l
    refine ⟨by simp [toggleTodo], ?_⟩
    intro i hi hi2
    have hmap : (toggleTodo id l).get ⟨i, hi2⟩ =
        (fun item => if item.id = id then { item with completed := !item.completed }
          else item) (l.get ⟨i, hi⟩) := by
      simp only [toggleTodo] at hi2 ⊢
      simp only [List.get_eq_getElem, List.getElem_map]
    exact hmap

/-- C9 witness: a concrete two-item roadmap; toggling the second item's
id flips only that item. -/
theorem c9_roadmap_ids_and_toggle_witness :
    ((setRoadmapIds (fun _ => 99)
        [⟨"t1", "d1", ["k"], "p", []⟩, ⟨"t2", "d2", [], "p2", []⟩]).Pairwise
          (fun x y => x.id ≠ y.id)
      ∧ ∀ item ∈ setRoadmapIds (fun _ => 99)
          [⟨"t1", "d1", ["k"], "p", []⟩, ⟨"t2", "d2", [], "p2", []⟩],
          item.completed = false)
    ∧ (toggleTodo "todo-1-99" (setRoadmapIds (fun _ => 99)
          [⟨"t1", "d1", ["k"], "p", []⟩, ⟨"t2", "d2", [], "p2", []⟩])).length
        = (setRoadmapIds (fun _ => 99)
          [⟨"t1", "d1", ["k"], "p", []⟩, ⟨"t2", "d2", [], "p2", []⟩]).length
    ∧ toggleTodo "todo-1-99" (setRoadmapIds (fun _ => 99)
        [⟨"t1", "d1", ["k"], "p", []⟩, ⟨"t2", "d2", [], "p2", []⟩])
      = [⟨"todo-0-99", "t1", "d1", ["k"], "p", [], false⟩,
         ⟨"todo-1-99", "t2", "d2", [], "p2", [], true⟩] := by
  refine ⟨(c9_roadmap_ids_and_toggle.1 (fun _ => 99)
    [⟨"t1", "d1", ["k"], "p", []⟩, ⟨"t2", "d2", [], "p2", []⟩]),
    (c9_roadmap_ids_and_toggle.2 "todo-1-99" (setRoadmapIds (fun _ => 99)
      [⟨"t1", "d1", ["k"], "p", []⟩, ⟨"t2", "d2", [], "p2", []⟩])).1, ?_⟩
  decide

end InterviewApp
